import Mathlib

/-!
Shallow embedding of `src/sources/n2c/run.rs` from the `oura` repository:
the node-to-client chain-sync observer (rollback buffer, depth-based block
confirmation, rollback handling), its failure classification
(`AttemptError`), and the retrying `do_chainsync` wrapper.

Conventions of the embedding:
* machine integers (slots, counters, durations in seconds) are `Nat`;
* `HashMap<Point, Vec<u8>>` is an association list with an overwriting
  insert, mirroring `HashMap::insert`;
* methods taking `&mut self` become functions `State → State × Result`;
* a Rust panic (from `.expect`) is a distinct `RResult.panicked` outcome,
  kept separate from `Err` values returned to callers, since a panic
  unwinds without producing a value that the caller can match on;
* external collaborators (block decoding, the event sink, the transport)
  are scripted inputs, following the injected-capability design;
* logging calls (`log::info!` etc.) have no observable effect and are
  omitted;
* each confirmation loop additionally returns the list of points it
  emitted blocks for, as ghost instrumentation of the loop iterations
  (one list entry per successful `unknown_block_to_events` call).
-/

/-- Outcome of running a piece of Rust code: a returned value, a returned
error value, or a panic that unwinds without producing a value. -/
inductive RResult (ε α : Type) where
  | ok : α → RResult ε α
  | err : ε → RResult ε α
  | panicked : String → RResult ε α
  deriving DecidableEq

/-- A chain position: `pallas::network::miniprotocols::Point`, either the
chain origin or a specific `(slot, hash)` position.  The block hash is
abstracted to a `Nat`. -/
inductive Point where
  | Origin : Point
  | Specific : Nat → Nat → Point
  deriving DecidableEq

/-- `Point::slot_or_default`: the slot of a specific point, `0` at origin. -/
def Point.slot_or_default : Point → Nat
  | Point.Origin => 0
  | Point.Specific slot _ => slot

/-- `chainsync::Tip`: a pair of the tip point and its block number; the
code only ever reads the block number (`tip.1` in Rust, `.2` here). -/
abbrev Tip := Point × Nat

/-- `chainsync::RollbackEffect`: result of `RollbackBuffer::roll_back`. -/
inductive RollbackEffect where
  | Handled : RollbackEffect
  | OutOfScope : RollbackEffect
  deriving DecidableEq

/-- Modelled from the spec: `chainsync::RollbackBuffer` is an external
`pallas` data structure whose source is not part of the embedded file; the
spec describes it as an ordered sequence of points, oldest first,
representing the unconfirmed tail of the chain. -/
structure RollbackBuffer where
  points : List Point
  deriving DecidableEq

/-- Modelled from the spec: `roll_forward(point)` appends the point as the
new newest entry of the buffer. -/
def RollbackBuffer.roll_forward (b : RollbackBuffer) (p : Point) : RollbackBuffer :=
  { points := b.points ++ [p] }

/-- Modelled from the spec: `pop_with_depth(min_depth)` removes and
returns, oldest first, the points whose distance from the newest point is
at least `min_depth` (the newest point has depth `0`). -/
def RollbackBuffer.pop_with_depth (b : RollbackBuffer) (min_depth : Nat) :
    List Point × RollbackBuffer :=
  if b.points.length ≤ min_depth then ([], b)
  else (b.points.take (b.points.length - min_depth),
        { points := b.points.drop (b.points.length - min_depth) })

/-- Modelled from the spec: `roll_back(point)` is `Handled` when the point
is present in the buffer, truncating the buffer to the points at or before
it; otherwise it is `OutOfScope` and the buffer is left empty. -/
def RollbackBuffer.roll_back (b : RollbackBuffer) (p : Point) :
    RollbackEffect × RollbackBuffer :=
  match b.points.findIdx? (fun q => decide (q = p)) with
  | some i => (RollbackEffect.Handled, { points := b.points.take (i + 1) })
  | none => (RollbackEffect.OutOfScope, { points := [] })

/-- `HashMap::insert` on the block store: overwrites the value when the
key is already present, appends otherwise. -/
def insertBlock (p : Point) (v : List Nat) :
    List (Point × List Nat) → List (Point × List Nat)
  | [] => [(p, v)]
  | (q, w) :: rest =>
    if q = p then (p, v) :: rest else (q, w) :: insertBlock p v rest

/-- `HashMap::get`-style lookup on the block store. -/
def lookupBlock (p : Point) : List (Point × List Nat) → Option (List Nat)
  | [] => none
  | (q, w) :: rest => if q = p then some w else lookupBlock p rest

/-- The removal half of `HashMap::remove` on the block store. -/
def removeBlock (p : Point) : List (Point × List Nat) → List (Point × List Nat)
  | [] => []
  | (q, w) :: rest =>
    if q = p then rest else (q, w) :: removeBlock p rest

/-- An event delivered to the downstream sink: a confirmed block carrying
its raw bytes, or a rollback notification carrying a point. -/
inductive Event where
  | block : List Nat → Event
  | rollback : Point → Event
  deriving DecidableEq

/-- The `EventWriter` collaborator: the list of sink events written so
far, the chain-tip values reported to metrics, and a flag saying whether
writes to the underlying sink currently succeed. -/
structure EventWriter where
  events : List Event
  tips : List Nat
  sink_ok : Bool
  deriving DecidableEq

/-- Modelled from the spec: `unknown_block_to_events` (in
`sources/mod.rs`, not part of the embedded file) sends a confirmed-block
event carrying the raw block bytes to the sink; it fails when the sink
does. -/
def unknown_block_to_events (w : EventWriter) (bytes : List Nat) :
    Except String EventWriter :=
  if w.sink_ok then Except.ok { w with events := w.events ++ [Event.block bytes] }
  else Except.error "sink closed"

/-- Modelled from the spec: `EventWriter::append_rollback_event` sends a
rollback event carrying the point to the sink; it fails when the sink
does. -/
def append_rollback_event (w : EventWriter) (p : Point) :
    Except String EventWriter :=
  if w.sink_ok then Except.ok { w with events := w.events ++ [Event.rollback p] }
  else Except.error "sink closed"

/-- `utils.track_chain_tip`: an infallible metrics call recording the
peer's reported tip block number. -/
def track_chain_tip (w : EventWriter) (t : Nat) : EventWriter :=
  { w with tips := w.tips ++ [t] }

/-- Modelled from the spec: `FinalizeConfig` (in `sources/mod.rs`, not
part of the embedded file) is an optional stopping condition, point-based
(a hash to stop at) or count-based (a number of confirmed blocks). -/
structure FinalizeConfig where
  until_hash : Option Nat
  max_block_quantity : Option Nat
  deriving DecidableEq

/-- Modelled from the spec: `should_finalize` evaluates the finalize
policy against the last confirmed point and the running confirmed-block
count. -/
def should_finalize (cfg : Option FinalizeConfig) (point : Point)
    (block_count : Nat) : Bool :=
  match cfg with
  | none => false
  | some c =>
    (match c.until_hash, point with
     | some h, Point.Specific _ ph => decide (h = ph)
     | _, _ => false) ||
    (match c.max_block_quantity with
     | some mx => decide (mx ≤ block_count)
     | none => false)

/-- The `ChainObserver` state from `run.rs`: rollback buffer,
confirmation depth, block store, event writer, finalize policy, and the
count of confirmed blocks. -/
structure ChainObserver where
  chain_buffer : RollbackBuffer
  min_depth : Nat
  blocks : List (Point × List Nat)
  event_writer : EventWriter
  finalize_config : Option FinalizeConfig
  block_count : Nat
  deriving DecidableEq

/-- `enum Continuation { Proceed, DropOut }` from `run.rs`. -/
inductive Continuation where
  | Proceed : Continuation
  | DropOut : Continuation
  deriving DecidableEq

/-- The confirmed-batch loop inside `on_roll_forward` (`run.rs` lines
74-88): for each ready point, remove its bytes from the store (a missing
entry panics via `.expect`), emit them downstream, bump `block_count`, and
stop with `true` as soon as `should_finalize` is satisfied.  Besides the
updated state and outcome it returns the ghost list of points whose blocks
were emitted. -/
def confirmLoop : List Point → ChainObserver → ChainObserver × List Point × RResult String Bool
  | [], s => (s, [], RResult.ok false)
  | p :: rest, s =>
    match lookupBlock p s.blocks with
    | none => (s, [], RResult.panicked "required block not found in memory")
    | some bytes =>
      let s1 := { s with blocks := removeBlock p s.blocks }
      match unknown_block_to_events s1.event_writer bytes with
      | Except.error e => (s1, [], RResult.err e)
      | Except.ok w =>
        let s2 := { s1 with event_writer := w, block_count := s1.block_count + 1 }
        if should_finalize s2.finalize_config p s2.block_count then
          (s2, [p], RResult.ok true)
        else
          match confirmLoop rest s2 with
          | (s3, em, r) => (s3, p :: em, r)

/-- `ChainObserver::on_roll_forward`: decode the block (failure is an
error), store its bytes keyed by its point, roll the buffer forward, pop
the points that reached `min_depth`, run the confirmation loop, and on a
completed batch report the tip to metrics and proceed.  The decoder is an
injected capability mapping raw bytes to `(slot, hash)`. -/
def ChainObserver.on_roll_forward (decode : List Nat → Option (Nat × Nat))
    (content : List Nat) (tip : Tip) (s : ChainObserver) :
    ChainObserver × List Point × RResult String Continuation :=
  match decode content with
  | none => (s, [], RResult.err "block decode failed")
  | some (slot, hash) =>
    let point := Point.Specific slot hash
    let s1 := { s with blocks := insertBlock point content s.blocks }
    let s2 := { s1 with chain_buffer := s1.chain_buffer.roll_forward point }
    let rb := s2.chain_buffer.pop_with_depth s2.min_depth
    let s3 := { s2 with chain_buffer := rb.2 }
    match confirmLoop rb.1 s3 with
    | (s4, em, RResult.ok true) => (s4, em, RResult.ok Continuation.DropOut)
    | (s4, em, RResult.ok false) =>
        ({ s4 with event_writer := track_chain_tip s4.event_writer tip.2 },
         em, RResult.ok Continuation.Proceed)
    | (s4, em, RResult.err e) => (s4, em, RResult.err e)
    | (s4, em, RResult.panicked m) => (s4, em, RResult.panicked m)

/-- `ChainObserver::on_rollback`: roll the buffer back; on `Handled`
retain only stored blocks at or before the rollback slot; on `OutOfScope`
clear the store and append an explicit rollback event (whose failure
propagates after the store was already cleared). -/
def ChainObserver.on_rollback (point : Point) (s : ChainObserver) :
    ChainObserver × Except String Unit :=
  match s.chain_buffer.roll_back point with
  | (RollbackEffect.Handled, buf) =>
      ({ s with chain_buffer := buf,
                blocks := s.blocks.filter
                  (fun kv => decide (kv.1.slot_or_default ≤ point.slot_or_default)) },
       Except.ok ())
  | (RollbackEffect.OutOfScope, buf) =>
      let s1 := { s with chain_buffer := buf, blocks := [] }
      match append_rollback_event s1.event_writer point with
      | Except.ok w => ({ s1 with event_writer := w }, Except.ok ())
      | Except.error e => (s1, Except.error e)

/-- `chainsync::NextResponse<BlockContent>`: the three protocol messages
the observer dispatches on. -/
inductive NextResponse where
  | RollForward : List Nat → Tip → NextResponse
  | RollBackward : Point → Tip → NextResponse
  | Await : NextResponse

/-- The two-kind failure classification of one chain-sync attempt
(`enum AttemptError` in `run.rs`). -/
inductive AttemptError where
  | Recoverable : String → AttemptError
  | Other : String → AttemptError
  deriving DecidableEq

/-- `ChainObserver::on_next_message`: dispatch one protocol message.
Errors of `on_roll_forward` and `on_rollback` are classified `Other`;
a failed must-reply receive is `Recoverable`.  The `Await` branch consumes
the scripted stream of must-reply receives and redispatches on the fetched
message; the updated script is returned alongside the outcome. -/
def ChainObserver.on_next_message (decode : List Nat → Option (Nat × Nat)) :
    NextResponse → List (Except String NextResponse) → ChainObserver →
    ChainObserver × List Point × List (Except String NextResponse) × RResult AttemptError Continuation
  | NextResponse.RollForward c t, script, s =>
    (match ChainObserver.on_roll_forward decode c t s with
     | (s', em, RResult.ok x) => (s', em, script, RResult.ok x)
     | (s', em, RResult.err e) => (s', em, script, RResult.err (AttemptError.Other e))
     | (s', em, RResult.panicked m) => (s', em, script, RResult.panicked m))
  | NextResponse.RollBackward p _, script, s =>
    (match ChainObserver.on_rollback p s with
     | (s', Except.ok _) => (s', [], script, RResult.ok Continuation.Proceed)
     | (s', Except.error e) => (s', [], script, RResult.err (AttemptError.Other e)))
  | NextResponse.Await, [], s =>
    (s, [], [], RResult.err (AttemptError.Recoverable "connection reset"))
  | NextResponse.Await, Except.error e :: rest, s =>
    (s, [], rest, RResult.err (AttemptError.Recoverable e))
  | NextResponse.Await, Except.ok next :: rest, s =>
    ChainObserver.on_next_message decode next rest s

/-- One iteration of the `observe_forever` session loop (`run.rs` lines
164-172): a failed `request_next` is a `Recoverable` failure, a fetched
message is dispatched through `on_next_message`. -/
def observe_step (decode : List Nat → Option (Nat × Nat))
    (fetched : Except String NextResponse)
    (script : List (Except String NextResponse)) (s : ChainObserver) :
    ChainObserver × List Point × List (Except String NextResponse) × RResult AttemptError Continuation :=
  match fetched with
  | Except.error e => (s, [], script, RResult.err (AttemptError.Recoverable e))
  | Except.ok msg => ChainObserver.on_next_message decode msg script s

/-- The session loop over a finite sequence of already-fetched protocol
messages: dispatch each in turn, stopping early on `DropOut` (result
`true`), an error, or a panic.  Returns the final state, the ghost list of
all points whose blocks were emitted, in order, and the outcome. -/
def runMessages (decode : List Nat → Option (Nat × Nat)) :
    List NextResponse → ChainObserver → ChainObserver × List Point × RResult String Bool
  | [], s => (s, [], RResult.ok false)
  | NextResponse.Await :: rest, s => runMessages decode rest s
  | NextResponse.RollForward c t :: rest, s =>
    (match ChainObserver.on_roll_forward decode c t s with
     | (s', em, RResult.ok Continuation.Proceed) =>
       (match runMessages decode rest s' with
        | (s'', em', r) => (s'', em ++ em', r))
     | (s', em, RResult.ok Continuation.DropOut) => (s', em, RResult.ok true)
     | (s', em, RResult.err e) => (s', em, RResult.err e)
     | (s', em, RResult.panicked m) => (s', em, RResult.panicked m))
  | NextResponse.RollBackward p _ :: rest, s =>
    (match ChainObserver.on_rollback p s with
     | (s', Except.ok _) =>
       (match runMessages decode rest s' with
        | (s'', em', r) => (s'', em', r))
     | (s', Except.error e) => (s', [], RResult.err e))

/-- A concrete injected decoder used by witnesses: a two-element byte list
is read as `(slot, hash)`, anything else fails to decode. -/
def decodeTest : List Nat → Option (Nat × Nat)
  | [s, h] => some (s, h)
  | _ => none

/-- Outcome of the handshake exchange as seen by `do_handshake`: a
transport error, an accepted confirmation, or any other confirmation. -/
inductive HandshakeResult where
  | transportErr : String → HandshakeResult
  | accepted : HandshakeResult
  | refused : HandshakeResult
  deriving DecidableEq

/-- `do_handshake` (`run.rs` lines 182-195): an accepted confirmation
succeeds, any other confirmation is an `Other` failure, a transport error
is `Recoverable`. -/
def do_handshake (r : HandshakeResult) : Except AttemptError Unit :=
  match r with
  | HandshakeResult.accepted => Except.ok ()
  | HandshakeResult.refused =>
      Except.error (AttemptError.Other "could not agree on handshake version")
  | HandshakeResult.transportErr e => Except.error (AttemptError.Recoverable e)

/-- The scripted outcomes of the external steps of one chain-sync
attempt: multiplexer setup, handshake, intersection search, and the
session loop result. -/
structure AttemptScript where
  plexer : Except String Unit
  hs : HandshakeResult
  intersect : Except String (Option Point)
  session : Except AttemptError Unit

/-- `do_chainsync_attempt` (`run.rs` lines 197-242): multiplexer and
intersection transport errors are `Recoverable`, a missing intersection is
an `Other` failure, otherwise the session loop's outcome is returned. -/
def do_chainsync_attempt (sc : AttemptScript) : Except AttemptError Unit :=
  match sc.plexer with
  | Except.error e => Except.error (AttemptError.Recoverable e)
  | Except.ok _ =>
    match do_handshake sc.hs with
    | Except.error e => Except.error e
    | Except.ok _ =>
      match sc.intersect with
      | Except.error e => Except.error (AttemptError.Recoverable e)
      | Except.ok none =>
          Except.error (AttemptError.Other "cannot find chain intersection point")
      | Except.ok (some _) => sc.session

/-- Modelled from the spec: the retry policy of `utils::retry` (not part
of the embedded file): maximum retry count, backoff unit, backoff factor,
and backoff cap, durations in seconds. -/
structure Policy where
  max_retries : Nat
  backoff_unit : Nat
  backoff_factor : Nat
  max_backoff : Nat
  deriving DecidableEq

/-- Modelled from the spec: the backoff before the retry following attempt
`n` starts at the unit, multiplies by the factor each attempt, and is
capped at the maximum. -/
def compute_backoff (pol : Policy) (n : Nat) : Nat :=
  min (pol.backoff_unit * pol.backoff_factor ^ n) pol.max_backoff

/-- Modelled from the spec: the attempt loop of `retry_operation`,
starting at attempt index `start` with `fuel` retries remaining.  Returns
the final outcome, the number of attempts made, and the list of backoff
delays slept. -/
def retryFrom (op : Nat → Except String Unit) (pol : Policy) :
    Nat → Nat → Except String Unit × Nat × List Nat
  | start, 0 =>
    (match op start with
     | Except.ok _ => (Except.ok (), 1, [])
     | Except.error e => (Except.error e, 1, []))
  | start, fuel + 1 =>
    (match op start with
     | Except.ok _ => (Except.ok (), 1, [])
     | Except.error _ =>
       match retryFrom op pol (start + 1) fuel with
       | (r, k, ds) => (r, k + 1, compute_backoff pol start :: ds))

/-- Modelled from the spec: `retry::retry_operation` runs the operation up
to `max_retries + 1` times, sleeping the computed backoff between
attempts, and propagates the last failure once attempts are exhausted. -/
def retry_operation (op : Nat → Except String Unit) (pol : Policy) :
    Except String Unit × Nat × List Nat :=
  retryFrom op pol 0 pol.max_retries

/-- The chain-sync slice of oura's `RetryPolicy` configuration. -/
structure RetryPolicyConfig where
  chainsync_max_retries : Nat
  chainsync_max_backoff : Nat
  deriving DecidableEq

/-- The slice of the n2c `Config` that `do_chainsync` reads. -/
structure Config where
  retry_policy : Option RetryPolicyConfig
  deriving DecidableEq

/-- The retry policy built inside `do_chainsync` (`run.rs` lines
259-273): configured overrides with defaults of 50 retries, 1 second
unit, factor 2, 60 second cap. -/
def chainsyncPolicy (c : Config) : Policy :=
  { max_retries := (c.retry_policy.map (fun x => x.chainsync_max_retries)).getD 50,
    backoff_unit := 1,
    backoff_factor := 2,
    max_backoff := (c.retry_policy.map (fun x => x.chainsync_max_backoff)).getD 60 }

/-- The closure passed to `retry_operation` by `do_chainsync` (`run.rs`
lines 250-258): a clean attempt and an `Other` failure both map to
success (the latter after logging), a `Recoverable` failure maps to an
error for the retry loop.  The attempts are a scripted family indexed by
attempt number. -/
def chainsyncOp (attempts : Nat → AttemptScript) (n : Nat) : Except String Unit :=
  match do_chainsync_attempt (attempts n) with
  | Except.ok _ => Except.ok ()
  | Except.error (AttemptError.Other _) => Except.ok ()
  | Except.error (AttemptError.Recoverable e) => Except.error e

/-- `do_chainsync` (`run.rs` lines 244-275): the retry wrapper around the
scripted attempts, with the policy derived from the configuration.
Returns the outcome, the number of attempts made, and the backoff delays
slept. -/
def do_chainsync (attempts : Nat → AttemptScript) (c : Config) :
    Except String Unit × Nat × List Nat :=
  retry_operation (chainsyncOp attempts) (chainsyncPolicy c)

/-! ### Concrete states used by witnesses and counterexamples -/

/-- An event writer whose sink accepts writes. -/
def writerOk : EventWriter := { events := [], tips := [], sink_ok := true }

/-- An event writer whose sink rejects writes. -/
def writerBad : EventWriter := { events := [], tips := [], sink_ok := false }

/-- The observer state `observe_forever` starts a session with, here with
`min_depth = 2` and no finalize policy. -/
def observer0 : ChainObserver :=
  { chain_buffer := { points := [] }, min_depth := 2, blocks := [],
    event_writer := writerOk, finalize_config := none, block_count := 0 }

/-- An observer holding two unconfirmed blocks at slots 10 and 12. -/
def observerTwo : ChainObserver :=
  { chain_buffer := { points := [Point.Specific 10 1, Point.Specific 12 2] },
    min_depth := 2,
    blocks := [(Point.Specific 10 1, [10, 1]), (Point.Specific 12 2, [12, 2])],
    event_writer := writerOk, finalize_config := none, block_count := 0 }

/-- The same observer with a sink that rejects writes. -/
def observerTwoBad : ChainObserver :=
  { observerTwo with event_writer := writerBad }

/-! ### C5: rollback effects on the block store and the event sink -/

/-- C5: after an `on_rollback` whose buffer effect is `Handled`, every
entry left in the block store has slot at most the rollback point's slot
and no rollback event is emitted; after an `OutOfScope` effect (with a
working sink) the block store is empty and exactly one rollback event
carrying the point is appended. -/
theorem c5_rollback_store_and_events (s : ChainObserver) (p : Point) :
    ((s.chain_buffer.roll_back p).1 = RollbackEffect.Handled →
      (ChainObserver.on_rollback p s).2 = Except.ok () ∧
      (∀ kv ∈ (ChainObserver.on_rollback p s).1.blocks,
        kv.1.slot_or_default ≤ p.slot_or_default) ∧
      (ChainObserver.on_rollback p s).1.event_writer.events = s.event_writer.events) ∧
    ((s.chain_buffer.roll_back p).1 = RollbackEffect.OutOfScope →
      s.event_writer.sink_ok = true →
      (ChainObserver.on_rollback p s).2 = Except.ok () ∧
      (ChainObserver.on_rollback p s).1.blocks = [] ∧
      (ChainObserver.on_rollback p s).1.event_writer.events
        = s.event_writer.events ++ [Event.rollback p]) := by
  rcases hrb : s.chain_buffer.roll_back p with ⟨eff, buf⟩
  cases eff with
  | Handled =>
    refine ⟨fun _ => ?_, fun h _ => by simp at h⟩
    refine ⟨by simp [ChainObserver.on_rollback, hrb], ?_, by simp [ChainObserver.on_rollback, hrb]⟩
    intro kv hkv
    simp only [ChainObserver.on_rollback, hrb] at hkv
    exact of_decide_eq_true (List.mem_filter.mp hkv).2
  | OutOfScope =>
    refine ⟨fun h => by simp at h, fun _ hsink => ?_⟩
    simp [ChainObserver.on_rollback, hrb, append_rollback_event, hsink]

/-- Witness for C5: the Handled branch at a rollback to slot 10 in
`observerTwo`, and the OutOfScope branch at a rollback to slot 5. -/
theorem c5_rollback_store_and_events_witness :
    ((ChainObserver.on_rollback (Point.Specific 10 1) observerTwo).2 = Except.ok () ∧
      (∀ kv ∈ (ChainObserver.on_rollback (Point.Specific 10 1) observerTwo).1.blocks,
        kv.1.slot_or_default ≤ (Point.Specific 10 1).slot_or_default) ∧
      (ChainObserver.on_rollback (Point.Specific 10 1) observerTwo).1.event_writer.events
        = observerTwo.event_writer.events) ∧
    ((ChainObserver.on_rollback (Point.Specific 5 9) observerTwo).2 = Except.ok () ∧
      (ChainObserver.on_rollback (Point.Specific 5 9) observerTwo).1.blocks = [] ∧
      (ChainObserver.on_rollback (Point.Specific 5 9) observerTwo).1.event_writer.events
        = observerTwo.event_writer.events ++ [Event.rollback (Point.Specific 5 9)]) :=
  ⟨(c5_rollback_store_and_events observerTwo (Point.Specific 10 1)).1 (by decide),
   (c5_rollback_store_and_events observerTwo (Point.Specific 5 9)).2 (by decide) (by decide)⟩

/-! ### C10: no atomicity between clearing the store and emitting -/

/-- C10: on an `OutOfScope` rollback the block store is cleared before the
rollback event is appended, so when the append fails `on_rollback` returns
the error while the store is already empty and no event was written. -/
theorem c10_clear_survives_failed_emit (s : ChainObserver) (p : Point)
    (heff : (s.chain_buffer.roll_back p).1 = RollbackEffect.OutOfScope)
    (hsink : s.event_writer.sink_ok = false) :
    (ChainObserver.on_rollback p s).2 = Except.error "sink closed" ∧
    (ChainObserver.on_rollback p s).1.blocks = [] ∧
    (ChainObserver.on_rollback p s).1.event_writer.events = s.event_writer.events := by
  rcases hrb : s.chain_buffer.roll_back p with ⟨eff, buf⟩
  rw [hrb] at heff
  cases eff with
  | Handled => simp at heff
  | OutOfScope => simp [ChainObserver.on_rollback, hrb, append_rollback_event, hsink]

/-- Witness for C10: a deep rollback of `observerTwoBad`, whose sink
rejects writes. -/
theorem c10_clear_survives_failed_emit_witness :
    (ChainObserver.on_rollback (Point.Specific 5 9) observerTwoBad).2
      = Except.error "sink closed" ∧
    (ChainObserver.on_rollback (Point.Specific 5 9) observerTwoBad).1.blocks = [] ∧
    (ChainObserver.on_rollback (Point.Specific 5 9) observerTwoBad).1.event_writer.events
      = observerTwoBad.event_writer.events :=
  c10_clear_survives_failed_emit observerTwoBad (Point.Specific 5 9) (by decide) (by decide)

/-! ### C9: the two-kind failure classification -/

/-- C9: transport-level failures (a failed `request_next`, a failed
must-reply receive, a handshake transport error) are classified
`Recoverable`, while a refused handshake version, a missing chain
intersection, and a block decode failure are classified `Other`. -/
theorem c9_failure_classification :
    (∀ (decode : List Nat → Option (Nat × Nat)) (e : String)
        (script : List (Except String NextResponse)) (s : ChainObserver),
      observe_step decode (Except.error e) script s
        = (s, [], script, RResult.err (AttemptError.Recoverable e))) ∧
    (∀ (decode : List Nat → Option (Nat × Nat)) (e : String)
        (rest : List (Except String NextResponse)) (s : ChainObserver),
      ChainObserver.on_next_message decode NextResponse.Await (Except.error e :: rest) s
        = (s, [], rest, RResult.err (AttemptError.Recoverable e))) ∧
    (∀ e : String, do_handshake (HandshakeResult.transportErr e)
        = Except.error (AttemptError.Recoverable e)) ∧
    (do_handshake HandshakeResult.refused
        = Except.error (AttemptError.Other "could not agree on handshake version")) ∧
    (∀ sc : AttemptScript, sc.plexer = Except.ok () → sc.hs = HandshakeResult.accepted →
      sc.intersect = Except.ok none →
      do_chainsync_attempt sc
        = Except.error (AttemptError.Other "cannot find chain intersection point")) ∧
    (∀ (decode : List Nat → Option (Nat × Nat)) (c : List Nat) (t : Tip)
        (script : List (Except String NextResponse)) (s : ChainObserver),
      decode c = none →
      (ChainObserver.on_next_message decode (NextResponse.RollForward c t) script s).2.2.2
        = RResult.err (AttemptError.Other "block decode failed")) := by
  refine ⟨fun _ _ _ _ => rfl, fun _ _ _ _ => rfl, fun _ => rfl, rfl, ?_, ?_⟩
  · intro sc h1 h2 h3
    simp [do_chainsync_attempt, h1, h2, h3, do_handshake]
  · intro decode c t script s hdec
    simp [ChainObserver.on_next_message, ChainObserver.on_roll_forward, hdec]

/-- Witness for C9: the classification at concrete inputs, including a
missing intersection and a block that fails to decode. -/
theorem c9_failure_classification_witness :
    observe_step decodeTest (Except.error "io") [] observer0
      = (observer0, [], [], RResult.err (AttemptError.Recoverable "io")) ∧
    do_chainsync_attempt
      { plexer := Except.ok (), hs := HandshakeResult.accepted,
        intersect := Except.ok none, session := Except.ok () }
      = Except.error (AttemptError.Other "cannot find chain intersection point") ∧
    (ChainObserver.on_next_message decodeTest
        (NextResponse.RollForward [7] (Point.Origin, 0)) [] observer0).2.2.2
      = RResult.err (AttemptError.Other "block decode failed") :=
  ⟨c9_failure_classification.1 decodeTest "io" [] observer0,
   c9_failure_classification.2.2.2.2.1 _ rfl rfl rfl,
   c9_failure_classification.2.2.2.2.2 decodeTest [7] (Point.Origin, 0) [] observer0 rfl⟩

/-! ### C2: a fatal attempt is not retried and not escalated -/

/-- C2: when the first attempt fails with an `Other` (fatal) failure, the
retry wrapper makes exactly one attempt with no backoff sleep and
`do_chainsync` returns success. -/
theorem c2_fatal_single_attempt_success (attempts : Nat → AttemptScript)
    (c : Config) (m : String)
    (h : do_chainsync_attempt (attempts 0) = Except.error (AttemptError.Other m)) :
    do_chainsync attempts c = (Except.ok (), 1, []) := by
  have hop : chainsyncOp attempts 0 = Except.ok () := by
    simp [chainsyncOp, h]
  unfold do_chainsync retry_operation
  cases (chainsyncPolicy c).max_retries with
  | zero => simp [retryFrom, hop]
  | succ k => simp [retryFrom, hop]

/-- Witness for C2: a script whose every attempt is refused at the
handshake, a fatal failure. -/
theorem c2_fatal_single_attempt_success_witness :
    do_chainsync
      (fun _ => { plexer := Except.ok (), hs := HandshakeResult.refused,
                  intersect := Except.ok (some Point.Origin), session := Except.ok () })
      { retry_policy := some { chainsync_max_retries := 7, chainsync_max_backoff := 60 } }
      = (Except.ok (), 1, []) :=
  c2_fatal_single_attempt_success _ _ "could not agree on handshake version" rfl

/-! ### C3: recoverable failures drive the exponential-backoff retry loop -/

/-- When every attempt fails, the retry loop from any starting index makes
`fuel + 1` attempts, sleeps the capped exponential backoff after each
failure but the last, and propagates the failure. -/
theorem retryFrom_all_fail (op : Nat → Except String Unit) (pol : Policy) (e : String)
    (h : ∀ n, op n = Except.error e) :
    ∀ fuel start, retryFrom op pol start fuel
      = (Except.error e, fuel + 1,
         (List.range fuel).map (fun i => compute_backoff pol (start + i))) := by
  intro fuel
  induction fuel with
  | zero => intro start; simp [retryFrom, h start]
  | succ f ih =>
    intro start
    have hmap : (List.range (f + 1)).map (fun i => compute_backoff pol (start + i))
        = compute_backoff pol start
          :: (List.range f).map (fun i => compute_backoff pol (start + 1 + i)) := by
      rw [List.range_succ_eq_map, List.map_cons, List.map_map]
      congr 1
      apply List.map_congr_left
      intro a _
      simp only [Function.comp_apply]
      congr 1
      omega
    simp [retryFrom, h start, ih (start + 1), hmap]

/-- C3: when every attempt fails with a `Recoverable` failure,
`do_chainsync` performs the configured maximum number of attempts, the
backoff delays start at the configured unit, double each attempt, and are
capped at the configured maximum, and after exhausting the attempts the
failure is propagated to the caller as an error. -/
theorem c3_recoverable_exhausts_retries (attempts : Nat → AttemptScript)
    (c : Config) (e : String)
    (h : ∀ n, do_chainsync_attempt (attempts n) = Except.error (AttemptError.Recoverable e)) :
    do_chainsync attempts c
      = (Except.error e, (chainsyncPolicy c).max_retries + 1,
         (List.range (chainsyncPolicy c).max_retries).map
           (fun i => min ((chainsyncPolicy c).backoff_unit
                            * (chainsyncPolicy c).backoff_factor ^ i)
                         (chainsyncPolicy c).max_backoff)) := by
  have hop : ∀ n, chainsyncOp attempts n = Except.error e := by
    intro n; simp [chainsyncOp, h n]
  unfold do_chainsync retry_operation
  rw [retryFrom_all_fail _ _ _ hop]
  simp [compute_backoff]

/-- An attempt script failing at the multiplexer on every attempt. -/
def attemptsRecoverable : Nat → AttemptScript :=
  fun _ => { plexer := Except.error "io", hs := HandshakeResult.accepted,
             intersect := Except.ok (some Point.Origin), session := Except.ok () }

/-- Witness for C3: three retries allowed, every attempt failing at the
multiplexer; four attempts, delays 1, 2, 4 seconds, terminal error. -/
theorem c3_recoverable_exhausts_retries_witness :
    do_chainsync attemptsRecoverable
      { retry_policy := some { chainsync_max_retries := 3, chainsync_max_backoff := 60 } }
      = (Except.error "io", 4, [1, 2, 4]) := by
  rw [c3_recoverable_exhausts_retries attemptsRecoverable _ "io" (fun n => rfl)]
  rfl

/-! ### C7: re-announcing an already-stored point silently overwrites -/

/-- An observer already holding bytes for the point at slot 5. -/
def observerDup : ChainObserver :=
  { chain_buffer := { points := [] }, min_depth := 5,
    blocks := [(Point.Specific 5 1, [0])],
    event_writer := writerOk, finalize_config := none, block_count := 0 }

/-- Counterexample to C7: rolling forward a block whose point is already
present in the block store does not fail; it succeeds with `Proceed` and
the stored bytes are silently replaced (`HashMap::insert` semantics). -/
theorem c7_counterexample :
    lookupBlock (Point.Specific 5 1) observerDup.blocks = some [0] ∧
    (ChainObserver.on_roll_forward decodeTest [5, 1] (Point.Origin, 9) observerDup).2.2
      = RResult.ok Continuation.Proceed ∧
    lookupBlock (Point.Specific 5 1)
      (ChainObserver.on_roll_forward decodeTest [5, 1] (Point.Origin, 9) observerDup).1.blocks
      = some [5, 1] := by
  decide

/-- Looking up the inserted key after an overwriting insert yields the new
value. -/
theorem lookupBlock_insertBlock_self (p : Point) (v : List Nat) :
    ∀ m : List (Point × List Nat), lookupBlock p (insertBlock p v m) = some v := by
  intro m
  induction m with
  | nil => simp [insertBlock, lookupBlock]
  | cons kv rest ih =>
    rcases kv with ⟨q, w⟩
    by_cases hq : q = p
    · simp [insertBlock, hq, lookupBlock]
    · simp [insertBlock, hq, lookupBlock, ih]

/-- C7 amended: a roll-forward of a point already present in the block
store is not an error: when no point becomes confirmable in the same call,
`on_roll_forward` returns `Proceed` and the store now maps the point to
the newly announced bytes, the old bytes silently dropped. -/
theorem c7_amended_overwrite_is_silent (decode : List Nat → Option (Nat × Nat))
    (s : ChainObserver) (content old : List Nat) (slot hash : Nat) (tip : Tip)
    (hdec : decode content = some (slot, hash))
    (_hold : lookupBlock (Point.Specific slot hash) s.blocks = some old)
    (hdepth : s.chain_buffer.points.length + 1 ≤ s.min_depth) :
    (ChainObserver.on_roll_forward decode content tip s).2.2
      = RResult.ok Continuation.Proceed ∧
    lookupBlock (Point.Specific slot hash)
      (ChainObserver.on_roll_forward decode content tip s).1.blocks = some content := by
  have hpop : (RollbackBuffer.roll_forward s.chain_buffer
      (Point.Specific slot hash)).points.length ≤ s.min_depth := by
    simp [RollbackBuffer.roll_forward]
    omega
  simp [ChainObserver.on_roll_forward, hdec, RollbackBuffer.pop_with_depth, hpop,
    confirmLoop, lookupBlock_insertBlock_self]

/-- Witness for C7 amended: the concrete duplicate-point state. -/
theorem c7_amended_overwrite_is_silent_witness :
    (ChainObserver.on_roll_forward decodeTest [5, 1] (Point.Origin, 9) observerDup).2.2
      = RResult.ok Continuation.Proceed ∧
    lookupBlock (Point.Specific 5 1)
      (ChainObserver.on_roll_forward decodeTest [5, 1] (Point.Origin, 9) observerDup).1.blocks
      = some [5, 1] :=
  c7_amended_overwrite_is_silent decodeTest observerDup [5, 1] [0] 5 1 (Point.Origin, 9)
    rfl (by decide) (by decide)

/-! ### C8: a confirmed point with missing bytes panics -/

/-- Discriminator for returned error values of an `RResult`. -/
def RResult.isErr {ε α : Type} : RResult ε α → Bool
  | RResult.err _ => true
  | _ => false

/-- An observer whose buffer holds a point with no stored bytes. -/
def observerMissing : ChainObserver :=
  { chain_buffer := { points := [Point.Specific 1 1] }, min_depth := 1, blocks := [],
    event_writer := writerOk, finalize_config := none, block_count := 0 }

/-- Counterexample to C8: when a ready point has no bytes in the block
store, the roll-forward dispatch does not produce an `Other` failure value
for the retry wrapper: it panics (the `.expect` call), an outcome that is
not an error value at all. -/
theorem c8_counterexample :
    (ChainObserver.on_next_message decodeTest
        (NextResponse.RollForward [2, 2] (Point.Origin, 9)) [] observerMissing).2.2.2
      = RResult.panicked "required block not found in memory" ∧
    ((ChainObserver.on_next_message decodeTest
        (NextResponse.RollForward [2, 2] (Point.Origin, 9)) [] observerMissing).2.2.2).isErr
      = false := by
  decide

/-- C8 amended: when the confirmation loop reaches a ready point whose
bytes are missing from the block store it panics with the `.expect`
message rather than returning an error value, and `on_next_message`
propagates a panic of `on_roll_forward` unchanged — it is never wrapped
into an `AttemptError` for the retry wrapper. -/
theorem c8_amended_missing_block_panics (p : Point) (rest : List Point)
    (s : ChainObserver) (hmiss : lookupBlock p s.blocks = none) :
    confirmLoop (p :: rest) s
      = (s, [], RResult.panicked "required block not found in memory") ∧
    (∀ (decode : List Nat → Option (Nat × Nat)) (c : List Nat) (t : Tip)
        (script : List (Except String NextResponse)) (s' : ChainObserver) (m : String),
      (ChainObserver.on_roll_forward decode c t s').2.2 = RResult.panicked m →
      (ChainObserver.on_next_message decode (NextResponse.RollForward c t) script s').2.2.2
        = RResult.panicked m) := by
  constructor
  · simp [confirmLoop, hmiss]
  · intro decode c t script s' m hpan
    rcases hrf : ChainObserver.on_roll_forward decode c t s' with ⟨sa, em, r⟩
    rw [hrf] at hpan
    simp only at hpan
    subst hpan
    simp [ChainObserver.on_next_message, hrf]

/-- Witness for C8 amended: the missing-bytes state. -/
theorem c8_amended_missing_block_panics_witness :
    confirmLoop [Point.Specific 1 1] observerMissing
      = (observerMissing, [], RResult.panicked "required block not found in memory") :=
  (c8_amended_missing_block_panics (Point.Specific 1 1) [] observerMissing rfl).1

/-! ### C4: the finalize policy stops the confirmation batch immediately -/

/-- Pushing an element on a list with a known last element. -/
theorem getLast?_cons_of_some {α : Type} (a q : α) (l : List α)
    (h : l.getLast? = some q) : (a :: l).getLast? = some q := by
  cases l with
  | nil => simp at h
  | cons b t => rw [List.getLast?_cons_cons]; exact h

/-- Structure of one run of the confirmation loop: the emitted points are
a prefix of the ready list; the buffer, depth and finalize policy are
untouched; exactly one sink event and one `block_count` increment happen
per emitted point and no tips are reported; completing the batch emits all
of it; dropping out means the finalize policy fired at the last emitted
point. -/
theorem confirmLoop_split (ready : List Point) :
    ∀ (s s' : ChainObserver) (em : List Point) (r : RResult String Bool),
      confirmLoop ready s = (s', em, r) →
      ∃ rest, ready = em ++ rest ∧
        s'.chain_buffer = s.chain_buffer ∧
        s'.min_depth = s.min_depth ∧
        s'.finalize_config = s.finalize_config ∧
        s'.event_writer.tips = s.event_writer.tips ∧
        s'.event_writer.sink_ok = s.event_writer.sink_ok ∧
        s'.event_writer.events.length = s.event_writer.events.length + em.length ∧
        s'.block_count = s.block_count + em.length ∧
        (r = RResult.ok false → em = ready) ∧
        (r = RResult.ok true → ∃ q, em.getLast? = some q ∧
          should_finalize s.finalize_config q s'.block_count = true) := by
  induction ready with
  | nil =>
    intro s s' em r h
    simp only [confirmLoop, Prod.mk.injEq] at h
    obtain ⟨h1, h2, h3⟩ := h
    subst h1; subst h2; subst h3
    refine ⟨[], by simp, rfl, rfl, rfl, rfl, rfl, by simp, by simp, fun _ => rfl, ?_⟩
    intro hq
    exact absurd hq (by simp)
  | cons p rest ih =>
    intro s s' em r h
    cases hlook : lookupBlock p s.blocks with
    | none =>
      simp only [confirmLoop, hlook, Prod.mk.injEq] at h
      obtain ⟨h1, h2, h3⟩ := h
      subst h1; subst h2; subst h3
      refine ⟨p :: rest, by simp, rfl, rfl, rfl, rfl, rfl, by simp, by simp, ?_, ?_⟩
      · intro hq; exact absurd hq (by simp)
      · intro hq; exact absurd hq (by simp)
    | some bytes =>
      cases hsink : s.event_writer.sink_ok with
      | false =>
        simp only [confirmLoop, hlook, unknown_block_to_events, hsink, Bool.false_eq_true,
          if_false, Prod.mk.injEq] at h
        obtain ⟨h1, h2, h3⟩ := h
        subst h1; subst h2; subst h3
        refine ⟨p :: rest, by simp, rfl, rfl, rfl, rfl, hsink, by simp, by simp, ?_, ?_⟩
        · intro hq; exact absurd hq (by simp)
        · intro hq; exact absurd hq (by simp)
      | true =>
        by_cases hfin : should_finalize s.finalize_config p (s.block_count + 1)
        · simp only [confirmLoop, hlook, unknown_block_to_events, hsink, if_true,
            hfin, Prod.mk.injEq] at h
          obtain ⟨h1, h2, h3⟩ := h
          subst h1; subst h2; subst h3
          refine ⟨rest, by simp, rfl, rfl, rfl, rfl, by simp [hsink], by simp, by simp, ?_, ?_⟩
          · intro hq; exact absurd hq (by simp)
          · intro _
            exact ⟨p, by simp, hfin⟩
        · simp [confirmLoop, hlook, unknown_block_to_events, hsink, hfin] at h
          obtain ⟨h1, h2, h3⟩ := h
          subst h1; subst h2; subst h3
          obtain ⟨rest2, hready, hbuf, hmd, hfc, htips, hsk, hlen, hbc, hoknone, hokdrop⟩ :=
            ih { chain_buffer := s.chain_buffer, min_depth := s.min_depth,
                 blocks := removeBlock p s.blocks,
                 event_writer := { events := s.event_writer.events ++ [Event.block bytes],
                                   tips := s.event_writer.tips, sink_ok := true },
                 finalize_config := s.finalize_config, block_count := s.block_count + 1 }
              _ _ _ rfl
          refine ⟨rest2, ?_, ?_, ?_, ?_, ?_, ?_, ?_, ?_, ?_, ?_⟩
          · rw [List.cons_append]
            exact congrArg (List.cons p) hready
          · simpa using hbuf
          · simpa using hmd
          · simpa using hfc
          · simpa using htips
          · simpa using hsk
          · simp only [List.length_append, List.length_cons] at hlen ⊢
            simp at hlen
            omega
          · simp at hbc
            simp only [List.length_cons]
            omega
          · intro hq
            rw [hoknone hq]
          · intro hq
            obtain ⟨q, hq1, hq2⟩ := hokdrop hq
            exact ⟨q, getLast?_cons_of_some p q _ hq1, by simpa using hq2⟩

/-- C4: when `on_roll_forward` drops out, the emitted points are a prefix
of the ready batch popped with `min_depth`, the finalize policy fired at
the last emitted point, the number of sink events grew by exactly the
emitted points (so the remaining ready points of the batch were never
emitted, although they had sufficient depth), and no tip was reported. -/
theorem c4_finalize_stops_batch (decode : List Nat → Option (Nat × Nat))
    (content : List Nat) (tip : Tip) (s : ChainObserver) (slot hash : Nat)
    (hdec : decode content = some (slot, hash))
    (hdrop : (ChainObserver.on_roll_forward decode content tip s).2.2
      = RResult.ok Continuation.DropOut) :
    ∃ rest q,
      ((s.chain_buffer.roll_forward (Point.Specific slot hash)).pop_with_depth s.min_depth).1
        = (ChainObserver.on_roll_forward decode content tip s).2.1 ++ rest ∧
      ((ChainObserver.on_roll_forward decode content tip s).2.1).getLast? = some q ∧
      should_finalize s.finalize_config q
        ((ChainObserver.on_roll_forward decode content tip s).1.block_count) = true ∧
      (ChainObserver.on_roll_forward decode content tip s).1.event_writer.events.length
        = s.event_writer.events.length
          + ((ChainObserver.on_roll_forward decode content tip s).2.1).length ∧
      (ChainObserver.on_roll_forward decode content tip s).1.event_writer.tips
        = s.event_writer.tips := by
  simp only [ChainObserver.on_roll_forward, hdec] at hdrop ⊢
  rcases hcl : confirmLoop
      ((s.chain_buffer.roll_forward (Point.Specific slot hash)).pop_with_depth s.min_depth).1
      { chain_buffer :=
          ((s.chain_buffer.roll_forward (Point.Specific slot hash)).pop_with_depth s.min_depth).2,
        min_depth := s.min_depth,
        blocks := insertBlock (Point.Specific slot hash) content s.blocks,
        event_writer := s.event_writer, finalize_config := s.finalize_config,
        block_count := s.block_count } with ⟨s4, em, rc⟩
  rw [hcl] at hdrop
  cases rc with
  | ok b =>
    cases b with
    | false => simp at hdrop
    | true =>
      simp only at hdrop ⊢
      obtain ⟨rest, hready, _, _, _, htips, _, hlen, _, _, hokdrop⟩ :=
        confirmLoop_split _ _ s4 em (RResult.ok true) hcl
      obtain ⟨q, hq1, hq2⟩ := hokdrop rfl
      exact ⟨rest, q, hready, hq1, by simpa using hq2, by simpa using hlen,
        by simpa using htips⟩
  | err e => simp at hdrop
  | panicked m => simp at hdrop

/-- An observer one message away from hitting a stop-after-1-block
finalize policy, with two points becoming ready in the same batch. -/
def observerBatch : ChainObserver :=
  { chain_buffer := { points := [Point.Specific 1 1] }, min_depth := 0,
    blocks := [(Point.Specific 1 1, [1, 1])],
    event_writer := writerOk,
    finalize_config := some { until_hash := none, max_block_quantity := some 1 },
    block_count := 0 }

/-- Witness for C4: rolling `observerBatch` forward makes two points ready
at once, but the finalize policy stops the batch after the first. -/
theorem c4_finalize_stops_batch_witness :
    ∃ rest q,
      ((observerBatch.chain_buffer.roll_forward (Point.Specific 2 2)).pop_with_depth
          observerBatch.min_depth).1
        = (ChainObserver.on_roll_forward decodeTest [2, 2] (Point.Origin, 9) observerBatch).2.1
            ++ rest ∧
      ((ChainObserver.on_roll_forward decodeTest [2, 2] (Point.Origin, 9) observerBatch).2.1).getLast?
        = some q ∧
      should_finalize observerBatch.finalize_config q
        ((ChainObserver.on_roll_forward decodeTest [2, 2] (Point.Origin, 9) observerBatch).1.block_count)
        = true ∧
      (ChainObserver.on_roll_forward decodeTest [2, 2] (Point.Origin, 9) observerBatch).1.event_writer.events.length
        = observerBatch.event_writer.events.length
          + ((ChainObserver.on_roll_forward decodeTest [2, 2] (Point.Origin, 9) observerBatch).2.1).length ∧
      (ChainObserver.on_roll_forward decodeTest [2, 2] (Point.Origin, 9) observerBatch).1.event_writer.tips
        = observerBatch.event_writer.tips :=
  c4_finalize_stops_batch decodeTest [2, 2] (Point.Origin, 9) observerBatch 2 2 rfl (by decide)

/-- The strict-slot ordering on points, used to state emission order. -/
def slotLtP (a b : Point) : Prop := a.slot_or_default < b.slot_or_default

/-- The points popped with depth `d` are an oldest-first prefix of the
buffer, and when anything is popped exactly `d` entries stay behind, so
every popped point had at least `d` strictly newer points above it. -/
theorem pop_with_depth_split (b : RollbackBuffer) (d : Nat) :
    b.points = (b.pop_with_depth d).1 ++ (b.pop_with_depth d).2.points ∧
    ((b.pop_with_depth d).1 ≠ [] → (b.pop_with_depth d).2.points.length = d) := by
  by_cases hlen : b.points.length ≤ d
  · simp [RollbackBuffer.pop_with_depth, hlen]
  · constructor
    · simp [RollbackBuffer.pop_with_depth, hlen]
    · intro _
      simp [RollbackBuffer.pop_with_depth, hlen]
      omega

/-- A well-formed protocol trace relative to the running observer state
and a strict slot bound `hi`: every roll-forward decodes to a slot above
all slots seen so far, every rollback is handled inside the buffer, and
every step completes without failure. -/
def validRun (decode : List Nat → Option (Nat × Nat)) :
    List NextResponse → ChainObserver → Nat → Bool
  | [], _, _ => true
  | NextResponse.Await :: rest, s, hi => validRun decode rest s hi
  | NextResponse.RollForward c t :: rest, s, hi =>
    (match decode c with
     | none => false
     | some (sl, _) =>
       decide (hi < sl) &&
       (match ChainObserver.on_roll_forward decode c t s with
        | (s', _, RResult.ok Continuation.Proceed) => validRun decode rest s' sl
        | (_, _, RResult.ok Continuation.DropOut) => true
        | (_, _, RResult.err _) => false
        | (_, _, RResult.panicked _) => false))
  | NextResponse.RollBackward p _ :: rest, s, hi =>
    (match s.chain_buffer.roll_back p with
     | (RollbackEffect.Handled, _) =>
       (match ChainObserver.on_rollback p s with
        | (s', Except.ok _) => validRun decode rest s' hi
        | (_, Except.error _) => false)
     | (RollbackEffect.OutOfScope, _) => false)

/-- Emission ordering along a valid run: if the buffer is strictly
increasing in slot and bounded by `hi`, then the points confirmed by the
run are strictly increasing in slot, and each of them either was already
buffered or carries a slot above `hi`. -/
theorem runMessages_increasing (decode : List Nat → Option (Nat × Nat)) :
    ∀ (msgs : List NextResponse) (s : ChainObserver) (hi : Nat),
      validRun decode msgs s hi = true →
      List.Pairwise slotLtP s.chain_buffer.points →
      (∀ q ∈ s.chain_buffer.points, q.slot_or_default ≤ hi) →
      List.Pairwise slotLtP (runMessages decode msgs s).2.1 ∧
      (∀ q ∈ (runMessages decode msgs s).2.1,
        q ∈ s.chain_buffer.points ∨ hi < q.slot_or_default) := by
  intro msgs
  induction msgs with
  | nil =>
    intro s hi _ _ _
    exact ⟨List.Pairwise.nil, by simp [runMessages]⟩
  | cons m rest ih =>
    intro s hi hv hp hb
    cases m with
    | Await =>
      simp only [validRun] at hv
      simp only [runMessages]
      exact ih s hi hv hp hb
    | RollForward c t =>
      cases hd : decode c with
      | none =>
        simp only [validRun, hd] at hv
        exact absurd hv (by simp)
      | some pr =>
        rcases pr with ⟨sl, hsh⟩
        simp only [validRun, runMessages, ChainObserver.on_roll_forward, hd,
          Bool.and_eq_true, decide_eq_true_eq] at hv ⊢
        rcases hcl : confirmLoop
            ((s.chain_buffer.roll_forward (Point.Specific sl hsh)).pop_with_depth s.min_depth).1
            { chain_buffer :=
                ((s.chain_buffer.roll_forward (Point.Specific sl hsh)).pop_with_depth
                    s.min_depth).2,
              min_depth := s.min_depth,
              blocks := insertBlock (Point.Specific sl hsh) c s.blocks,
              event_writer := s.event_writer, finalize_config := s.finalize_config,
              block_count := s.block_count } with ⟨s4, em4, rc⟩
        rw [hcl] at hv
        have hisl : hi < sl := hv.1
        have hpop := pop_with_depth_split
          (s.chain_buffer.roll_forward (Point.Specific sl hsh)) s.min_depth
        have hext : (s.chain_buffer.roll_forward (Point.Specific sl hsh)).points
            = s.chain_buffer.points ++ [Point.Specific sl hsh] := rfl
        have hsplit : s.chain_buffer.points ++ [Point.Specific sl hsh]
            = ((s.chain_buffer.roll_forward (Point.Specific sl hsh)).pop_with_depth
                s.min_depth).1
              ++ ((s.chain_buffer.roll_forward (Point.Specific sl hsh)).pop_with_depth
                s.min_depth).2.points := by
          rw [← hext]; exact hpop.1
        have hPairExt : List.Pairwise slotLtP
            (s.chain_buffer.points ++ [Point.Specific sl hsh]) := by
          refine List.pairwise_append.mpr ⟨hp, by simp, ?_⟩
          intro a ha b hbmem
          simp only [List.mem_singleton] at hbmem
          subst hbmem
          have h1 := hb a ha
          simp only [slotLtP, show (Point.Specific sl hsh).slot_or_default = sl from rfl]
          omega
        have hPairSplit := List.pairwise_append.mp (hsplit ▸ hPairExt)
        obtain ⟨hPairReady, hPairBuf, hCross⟩ := hPairSplit
        have hboundExt : ∀ q ∈ s.chain_buffer.points ++ [Point.Specific sl hsh],
            q.slot_or_default ≤ sl := by
          intro q hq
          rcases List.mem_append.mp hq with h1 | h1
          · have h2 := hb q h1
            omega
          · simp only [List.mem_singleton] at h1
            subst h1
            simp [Point.slot_or_default]
        have hmemExt : ∀ q ∈ s.chain_buffer.points ++ [Point.Specific sl hsh],
            q ∈ s.chain_buffer.points ∨ hi < q.slot_or_default := by
          intro q hq
          rcases List.mem_append.mp hq with h1 | h1
          · exact Or.inl h1
          · simp only [List.mem_singleton] at h1
            subst h1
            exact Or.inr (by simpa [Point.slot_or_default] using hisl)
        obtain ⟨restp, hready4, hbuf4, _, _, _, _, _, _, hoknone, _⟩ :=
          confirmLoop_split _ _ s4 em4 rc hcl
        have hbuf4' : s4.chain_buffer
            = ((s.chain_buffer.roll_forward (Point.Specific sl hsh)).pop_with_depth
                s.min_depth).2 := by
          simpa using hbuf4
        cases rc with
        | ok b =>
          cases b with
          | true =>
            simp only at hv ⊢
            constructor
            · rw [hready4] at hPairReady
              exact (List.pairwise_append.mp hPairReady).1
            · intro q hq
              refine hmemExt q ?_
              rw [hsplit]
              exact List.mem_append_left _ (hready4 ▸ List.mem_append_left restp hq)
          | false =>
            simp only at hv ⊢
            have hem : em4
                = ((s.chain_buffer.roll_forward (Point.Specific sl hsh)).pop_with_depth
                    s.min_depth).1 := hoknone rfl
            have hp' : List.Pairwise slotLtP
                ({ s4 with event_writer := track_chain_tip s4.event_writer t.2
                   } : ChainObserver).chain_buffer.points := by
              show List.Pairwise slotLtP s4.chain_buffer.points
              rw [hbuf4']
              exact hPairBuf
            have hb' : ∀ q ∈ ({ s4 with event_writer := track_chain_tip s4.event_writer t.2
                   } : ChainObserver).chain_buffer.points, q.slot_or_default ≤ sl := by
              intro q hq
              refine hboundExt q ?_
              rw [hsplit]
              refine List.mem_append_right _ ?_
              rw [hbuf4'] at hq
              exact hq
            obtain ⟨ihPair, ihMem⟩ :=
              ih { s4 with event_writer := track_chain_tip s4.event_writer t.2 } sl hv.2 hp' hb'
            constructor
            · refine List.pairwise_append.mpr ⟨?_, ihPair, ?_⟩
              · rw [hem]
                exact hPairReady
              · intro a ha bq hbq
                have hamem : a ∈ ((s.chain_buffer.roll_forward
                    (Point.Specific sl hsh)).pop_with_depth s.min_depth).1 := hem ▸ ha
                rcases ihMem bq hbq with h1 | h1
                · refine hCross a hamem bq ?_
                  rw [← hbuf4']
                  exact h1
                · have h2 : a.slot_or_default ≤ sl := by
                    refine hboundExt a ?_
                    rw [hsplit]
                    exact List.mem_append_left _ hamem
                  simp only [slotLtP]
                  omega
            · intro q hq
              rcases List.mem_append.mp hq with h1 | h1
              · refine hmemExt q ?_
                rw [hsplit]
                exact List.mem_append_left _ (hem ▸ h1)
              · rcases ihMem q h1 with h2 | h2
                · refine hmemExt q ?_
                  rw [hsplit]
                  refine List.mem_append_right _ ?_
                  rw [← hbuf4']
                  exact h2
                · exact Or.inr (by omega)
        | err e => exact absurd hv.2 (by simp)
        | panicked m => exact absurd hv.2 (by simp)
    | RollBackward p t =>
      rcases hrb : s.chain_buffer.roll_back p with ⟨eff, buf⟩
      cases eff with
      | OutOfScope =>
        simp only [validRun, hrb] at hv
        exact absurd hv (by simp)
      | Handled =>
        have hor : ChainObserver.on_rollback p s
            = ({ s with chain_buffer := buf,
                        blocks := s.blocks.filter
                          (fun kv =>
                            decide (kv.1.slot_or_default ≤ p.slot_or_default)) },
               Except.ok ()) := by
          simp [ChainObserver.on_rollback, hrb]
        have hsub : List.Sublist buf.points s.chain_buffer.points := by
          rw [RollbackBuffer.roll_back] at hrb
          rcases hfind : s.chain_buffer.points.findIdx? (fun q => decide (q = p))
            with _ | i
          · rw [hfind] at hrb
            simp at hrb
          · rw [hfind] at hrb
            simp only [Prod.mk.injEq] at hrb
            rw [← hrb.2]
            exact List.take_sublist _ _
        simp only [validRun, hrb, hor, runMessages] at hv ⊢
        have hp' : List.Pairwise slotLtP buf.points := hp.sublist hsub
        have hb' : ∀ q ∈ buf.points, q.slot_or_default ≤ hi :=
          fun q hq => hb q (hsub.subset hq)
        obtain ⟨ihPair, ihMem⟩ :=
          ih { s with chain_buffer := buf,
                      blocks := s.blocks.filter
                        (fun kv => decide (kv.1.slot_or_default ≤ p.slot_or_default)) }
            hi hv hp' hb'
        refine ⟨ihPair, ?_⟩
        intro q hq
        rcases ihMem q hq with h1 | h1
        · exact Or.inl (hsub.subset h1)
        · exact Or.inr h1

/-- C1 (amended): along any message trace whose roll-forwards decode to
slots strictly above everything seen before and whose rollbacks are all
handled inside the buffer, the confirmed points are emitted in strictly
increasing slot order — hence no point is emitted twice — and a point is
only ever popped as confirmable when at least `min_depth` newer points sit
above it in the rollback buffer. -/
theorem c1_amended_confirmed_emission (decode : List Nat → Option (Nat × Nat))
    (msgs : List NextResponse) (s : ChainObserver) (hi : Nat)
    (hvalid : validRun decode msgs s hi = true)
    (hpair : List.Pairwise slotLtP s.chain_buffer.points)
    (hbound : ∀ q ∈ s.chain_buffer.points, q.slot_or_default ≤ hi) :
    List.Pairwise slotLtP (runMessages decode msgs s).2.1 ∧
    List.Pairwise (fun a b : Point => a ≠ b) (runMessages decode msgs s).2.1 ∧
    ∀ (b : RollbackBuffer) (d : Nat),
      b.points = (b.pop_with_depth d).1 ++ (b.pop_with_depth d).2.points ∧
      ((b.pop_with_depth d).1 ≠ [] → (b.pop_with_depth d).2.points.length = d) := by
  obtain ⟨h1, _⟩ := runMessages_increasing decode msgs s hi hvalid hpair hbound
  refine ⟨h1, ?_, fun b d => pop_with_depth_split b d⟩
  refine h1.imp ?_
  intro a b hab heq
  rw [heq] at hab
  exact Nat.lt_irrefl _ hab

/-- A tip value reused by the concrete traces. -/
def tip0 : Tip := (Point.Origin, 9)

/-- A protocol trace with a rollback deeper than the buffer: the block at
slot 1 is confirmed, the deep rollback clears the buffer (emitting a
rollback event downstream), and the re-announced chain confirms the same
point again. -/
def cexMsgs : List NextResponse :=
  [NextResponse.RollForward [1, 1] tip0, NextResponse.RollForward [2, 2] tip0,
   NextResponse.RollForward [3, 3] tip0,
   NextResponse.RollBackward (Point.Specific 0 0) tip0,
   NextResponse.RollForward [1, 1] tip0, NextResponse.RollForward [2, 2] tip0,
   NextResponse.RollForward [3, 3] tip0]

/-- Counterexample to C1 as stated: over the out-of-scope-rollback trace
`cexMsgs` the observer emits the point at slot 1 twice, so emission is
neither strictly increasing in slot nor free of duplicates over every
sequence of processed protocol messages. -/
theorem c1_counterexample :
    (runMessages decodeTest cexMsgs observer0).2.1
      = [Point.Specific 1 1, Point.Specific 1 1] ∧
    ¬ List.Pairwise (fun a b : Point => a ≠ b)
        (runMessages decodeTest cexMsgs observer0).2.1 ∧
    ¬ List.Pairwise slotLtP (runMessages decodeTest cexMsgs observer0).2.1 := by
  have hout : (runMessages decodeTest cexMsgs observer0).2.1
      = [Point.Specific 1 1, Point.Specific 1 1] := by decide
  refine ⟨hout, ?_, ?_⟩
  · intro h
    rw [hout] at h
    exact (List.rel_of_pairwise_cons h (List.mem_cons_self _ _)) rfl
  · intro h
    rw [hout] at h
    exact Nat.lt_irrefl _ (List.rel_of_pairwise_cons h (List.mem_cons_self _ _))

/-- A protocol trace satisfying `validRun` from the fresh observer:
strictly increasing forward slots 1, 2, 3, an in-buffer rollback to slot
2, then forwards at slots 4 and 5; it confirms slots 1 and 2. -/
def goodMsgs : List NextResponse :=
  [NextResponse.RollForward [1, 1] tip0, NextResponse.RollForward [2, 2] tip0,
   NextResponse.RollForward [3, 3] tip0,
   NextResponse.RollBackward (Point.Specific 2 2) tip0,
   NextResponse.RollForward [4, 4] tip0, NextResponse.RollForward [5, 5] tip0]

/-- Witness for C1 (amended): the trace `goodMsgs` is valid from the
fresh observer and its confirmed points come out strictly increasing. -/
theorem c1_amended_confirmed_emission_witness :
    validRun decodeTest goodMsgs observer0 0 = true ∧
    (List.Pairwise slotLtP (runMessages decodeTest goodMsgs observer0).2.1 ∧
     List.Pairwise (fun a b : Point => a ≠ b)
       (runMessages decodeTest goodMsgs observer0).2.1 ∧
     ∀ (b : RollbackBuffer) (d : Nat),
       b.points = (b.pop_with_depth d).1 ++ (b.pop_with_depth d).2.points ∧
       ((b.pop_with_depth d).1 ≠ [] → (b.pop_with_depth d).2.points.length = d)) :=
  ⟨by decide,
   c1_amended_confirmed_emission decodeTest goodMsgs observer0 0 (by decide)
     List.Pairwise.nil (by simp [observer0])⟩
